import Mathlib

/-!
Verification of `altium_renamer.py` against its specification.

The script is embedded shallowly:

* Strings are modelled as `List Char` (`Str`); a Python `dict` that is only
  built by item assignment and read by `get` is modelled as an association
  list with insert-or-overwrite-in-place (`Dict`), which reproduces the
  insertion-ordered, last-write-wins semantics of `dict`.
* The regular expressions used by the script (`\[Parameter\d+\]`,
  `Name=(.+)`, `Value=(.+)`, `\[(.*?)\]`, `(\[.*?\])`) are modelled by
  direct scanning functions with the same matching semantics (prefix
  matching for `re.match`, non-greedy bracketed spans for `re.findall`,
  `.` not matching a newline).
* The filesystem is modelled as a list of entries `FSFile` (name, file/dir
  flag, content as a list of raw lines).  Paths never leave the single
  target directory, so absolute paths are represented by their basenames;
  `os.path.basename` follows Windows semantics (the script targets the
  Windows Explorer context menu), splitting on both `\` and `/`.
  Filesystem operations never fail in the model (the script's per-file
  `try/except` around `os.rename` and file reads is not exercised).
* `str.replace` is modelled for non-empty patterns (the patterns used are
  bracketed spans of length at least two, and rename-map keys are
  non-empty on-disk filenames).
-/

/-- Strings of the script, modelled as lists of characters. -/
abbrev Str := List Char

/-- Python `dict` built by assignment: insertion-ordered association list. -/
abbrev Dict := List (Str × Str)

/-- Coerce a Lean string literal into the `Str` model. -/
def str (s : String) : Str := s.data

/-- `d.get(k)`: first (unique) binding of `k`, if any. -/
def dictGet (d : Dict) (k : Str) : Option Str :=
  match d with
  | [] => none
  | kv :: rest => if kv.1 = k then some kv.2 else dictGet rest k

/-- `d[k] = v`: overwrite in place if `k` is bound, else append. -/
def dictInsert (d : Dict) (k v : Str) : Dict :=
  match d with
  | [] => [(k, v)]
  | kv :: rest => if kv.1 = k then (k, v) :: rest else kv :: dictInsert rest k v

/-- The whitespace characters stripped by Python `str.strip()` (ASCII part). -/
def isPySpace (c : Char) : Bool :=
  c == ' ' || c == '\t' || c == '\n' || c == '\r' || c == '\x0b' || c == '\x0c'

/-- Python `str.strip()`. -/
def pstrip (l : Str) : Str :=
  ((l.dropWhile isPySpace).reverse.dropWhile isPySpace).reverse

/-- If `pat` is a leading segment of `s`, return the remainder of `s`. -/
def dropStart : Str → Str → Option Str
  | [], s => some s
  | _ :: _, [] => none
  | p :: ps, c :: cs => if p = c then dropStart ps cs else none

/-- `s.startswith(pat)`. -/
def startsWithStr (pat s : Str) : Bool := (dropStart pat s).isSome

/-- `s.endswith(pat)`. -/
def endsWithStr (pat s : Str) : Bool := startsWithStr pat.reverse s.reverse

/-- `re.match(r'\[Parameter\d+\]', line)` viewed as a Boolean test:
the line starts with `[Parameter`, one or more digits, and `]`. -/
def isParamHeader (l : Str) : Bool :=
  match dropStart (str "[Parameter") l with
  | some rest =>
    let ds := rest.takeWhile (fun c => c.isDigit)
    match rest.drop ds.length with
    | ']' :: _ => !ds.isEmpty
    | _ => false
  | none => false

/-- `re.match(r'Name=(.+)', line)`: the captured group, i.e. the non-empty
run of non-newline characters following a leading `Name=`. -/
def nameGroup (l : Str) : Option Str :=
  match dropStart (str "Name=") l with
  | some rest =>
    let g := rest.takeWhile (fun c => c != '\n')
    if g = [] then none else some g
  | none => none

/-- `re.match(r'Value=(.+)', line)`: as `nameGroup` but for `Value=`. -/
def valueGroup (l : Str) : Option Str :=
  match dropStart (str "Value=") l with
  | some rest =>
    let g := rest.takeWhile (fun c => c != '\n')
    if g = [] then none else some g
  | none => none

/-- One iteration of the `for line in f` loop of
`extract_parameters_from_project_file`: state is the pending parameter name
(`current_parameter_name`) together with the mapping built so far. -/
def extractLine (st : Option Str × Dict) (rawLine : Str) : Option Str × Dict :=
  let line := pstrip rawLine
  if isParamHeader line then (none, st.2)
  else
    match nameGroup line with
    | some g => (some (pstrip g), st.2)
    | none =>
      match valueGroup line with
      | some g =>
        match st.1 with
        | some nm => if nm ≠ [] then (none, dictInsert st.2 nm (pstrip g)) else st
        | none => st
      | none => st

/-- `extract_parameters_from_project_file`, applied to the file's lines
(the model reads the content directly; an unreadable file is modelled by
an empty line list, which likewise yields the empty mapping). -/
def extract_parameters_from_project_file (lines : List Str) : Dict :=
  (lines.foldl extractLine (none, [])).2

/-- Scan for the first `]`; fails at a newline or at the end of the string
(`.` in the regexes does not match a newline).  Returns the characters
before the `]` and the characters after it. -/
def splitAtClose : Str → Option (Str × Str)
  | [] => none
  | c :: rest =>
    if c = ']' then some ([], rest)
    else if c = '\n' then none
    else
      match splitAtClose rest with
      | some (inner, after) => some (c :: inner, after)
      | none => none

/-- `re.findall(r'(\[.*?\])', s)` with explicit fuel (the fuel is the
length of the string, which the scan never exhausts): every non-greedy
bracketed span, left to right. -/
def findSpansFuel : Nat → Str → List Str
  | 0, _ => []
  | _ + 1, [] => []
  | fuel + 1, c :: rest =>
    if c = '[' then
      match splitAtClose rest with
      | some (inner, after) => ('[' :: (inner ++ [']'])) :: findSpansFuel fuel after
      | none => findSpansFuel fuel rest
    else findSpansFuel fuel rest

/-- `re.findall(r'(\[.*?\])', s)`. -/
def findSpans (s : Str) : List Str := findSpansFuel s.length s

/-- `placeholder[1:-1]`: the inner name of a bracketed span. -/
def spanInner (s : Str) : Str := (s.drop 1).dropLast

/-- `get_placeholder_parameters_from_filename`:
`re.findall(r'\[(.*?)\]', filename)`, i.e. the inner names of the spans. -/
def get_placeholder_parameters_from_filename (filename : Str) : List Str :=
  (findSpans filename).map spanInner

/-- Python `s.replace(old, new)` for a non-empty `old`, with explicit fuel
(the fuel is the length of `s`, which the scan never exhausts):
leftmost-first, non-overlapping replacement of every occurrence. -/
def replaceAllFuel : Nat → Str → Str → Str → Str
  | 0, s, _, _ => s
  | _ + 1, [], _, _ => []
  | fuel + 1, c :: cs, pat, rep =>
    if pat ≠ [] ∧ startsWithStr pat (c :: cs) then
      rep ++ replaceAllFuel fuel ((c :: cs).drop pat.length) pat rep
    else c :: replaceAllFuel fuel cs pat rep

/-- Python `s.replace(old, new)` for a non-empty `old`. -/
def replaceAll (s pat rep : Str) : Str := replaceAllFuel s.length s pat rep

/-- The body of the `for placeholder in placeholders` loop of
`generate_new_filename`: accumulate the working filename and the list of
missing parameter names. -/
def genStep (parameters : Dict) (acc : Str × List Str) (placeholder : Str) :
    Str × List Str :=
  match dictGet parameters (spanInner placeholder) with
  | some v => (replaceAll acc.1 placeholder v, acc.2)
  | none => (acc.1, acc.2 ++ [spanInner placeholder])

/-- `generate_new_filename(old_filename_template, parameters)`. -/
def generate_new_filename (old_filename_template : Str) (parameters : Dict) :
    Str × List Str :=
  (findSpans old_filename_template).foldl (genStep parameters)
    (old_filename_template, [])

/-- A directory entry: basename, whether it is a regular file, and (for the
descriptor file) its content as raw lines.  Non-file entries and files never
read carry an irrelevant content (an unreadable entry reads as no lines,
matching the script's catch-and-return-empty behaviour). -/
structure FSFile where
  name : Str
  isFile : Bool
  content : List Str
deriving DecidableEq, Repr

/-- The target directory: its entries in `os.listdir` order. -/
abbrev FS := List FSFile

/-- `os.path.exists` within the directory. -/
def fsExists (fs : FS) (n : Str) : Bool :=
  fs.any (fun f => f.name == n)

/-- `os.path.isfile` within the directory. -/
def fsIsFile (fs : FS) (n : Str) : Bool :=
  fs.any (fun f => f.name == n && f.isFile)

/-- `os.rename` within the directory (guarded by the script so that the
target never exists; renaming keeps the entry's content). -/
def fsRename (fs : FS) (old new : Str) : FS :=
  fs.map (fun f => if f.name = old then { f with name := new } else f)

/-- Reading a file's lines (`open` + iteration / `readlines`). -/
def fsContent (fs : FS) (n : Str) : List Str :=
  match fs.find? (fun f => f.name == n) with
  | some f => f.content
  | none => []

/-- Writing a file's lines back (`open(..., 'w')` + `writelines`). -/
def fsWrite (fs : FS) (n : Str) (c : List Str) : FS :=
  fs.map (fun f => if f.name = n then { f with content := c } else f)

/-- `ntpath.basename`: the part of a path after the last `\` or `/`
(the script runs on Windows, where both are separators). -/
def ntBasename (p : Str) : Str :=
  p.foldl (fun acc c => if c = '\\' ∨ c = '/' then [] else acc ++ [c]) []

/-- `line.strip().split('=', 1)[1]`: everything after the first `=`. -/
def splitEqTail (l : Str) : Str :=
  (l.dropWhile (fun c => c != '=')).drop 1

/-- The console messages of the script, as structured tags. -/
inductive Msg where
  | noProject
  | multiProject (names : List Str)
  | missingProjParams (missing : List Str)
  | projTargetExists (target : Str)
  | renamedProj (old new : Str)
  | noParams
  | skipMissing (name : Str) (missing : List Str)
  | skipExists (name target : Str)
  | renamedFile (old new : Str)
  | noRenames
  | wroteContent
  | noContentChanges
deriving DecidableEq, Repr

/-- The result of `get_project_file`: the `(path, None)` / `(None, error)`
pair of the script, as a sum. -/
inductive ProjResult where
  | found (path : Str)
  | err (m : Msg)
deriving DecidableEq, Repr

/-- `get_project_file(directory)`: filter the directory listing by the
descriptor-extension allow-list and require exactly one match.  Absolute
paths are represented by basenames (everything is in one directory). -/
def hasProjExt (name : Str) : Bool :=
  endsWithStr (str ".PrjPcb") name || endsWithStr (str ".PrjHar") name ||
    endsWithStr (str ".PrjMbd") name

def get_project_file (listing : List Str) : ProjResult :=
  match listing.filter hasProjExt with
  | [] => ProjResult.err Msg.noProject
  | [f] => ProjResult.found f
  | found => ProjResult.err (Msg.multiProject found)

/-- The state threaded through the renaming loop (step 1 of the script):
the live directory, `files_renamed_map`, and the console log. -/
structure LoopSt where
  fs : FS
  renMap : Dict
  msgs : List Msg
deriving DecidableEq, Repr

/-- The body of the `for filename_on_disk in current_files_on_disk` loop of
`rename_files_and_update_project`.  `projName` is the descriptor's current
basename (after a possible self-rename), `origBase` its original one. -/
def processEntry (projName origBase : Str) (params : Dict)
    (st : LoopSt) (name : Str) : LoopSt :=
  if fsIsFile st.fs name = false then st
  else if name = projName ∨ (projName ≠ origBase ∧ name = origBase) then st
  else if get_placeholder_parameters_from_filename name = [] then st
  else
    let r := generate_new_filename name params
    if r.2 ≠ [] then { st with msgs := st.msgs ++ [Msg.skipMissing name r.2] }
    else if r.1 ≠ name then
      if fsExists st.fs r.1 = true ∧ r.1 ≠ name then
        { st with msgs := st.msgs ++ [Msg.skipExists name r.1] }
      else
        { fs := fsRename st.fs name r.1
          renMap := dictInsert st.renMap name r.1
          msgs := st.msgs ++ [Msg.renamedFile name r.1] }
    else st

/-- The rewriting of a single descriptor line (step 2 of the script): a
line whose stripped form starts with `DocumentPath=` has the filename
component of its path value looked up in the rename map and, on a hit with
a different new name, is rebuilt as `DocumentPath=<new path>\n`. -/
def rewriteLine (renMap : Dict) (line : Str) : Str :=
  let stripped := pstrip line
  if startsWithStr (str "DocumentPath=") stripped then
    let pathPart := splitEqTail stripped
    let cur := ntBasename pathPart
    match dictGet renMap cur with
    | some nn =>
      if nn ≠ [] ∧ nn ≠ cur then
        str "DocumentPath=" ++ replaceAll pathPart cur nn ++ ['\n']
      else line
    | none => line
  else line

/-- The line-updating loop: accumulates `updated_lines` and the
`changes_made_in_content` flag (set when a rewritten line differs from the
original after stripping; for untouched lines the comparison is trivially
false, so it is folded in unconditionally). -/
def updateLines (renMap : Dict) (lines : List Str) : List Str × Bool :=
  lines.foldl
    (fun acc line =>
      let m := rewriteLine renMap line
      (acc.1 ++ [m], acc.2 || (pstrip m != pstrip line)))
    ([], false)

/-- Step 2 of `rename_files_and_update_project`: stop when the rename map
is empty, otherwise rewrite the reference lines and write the file back
only when the change flag was set. -/
def updateProjectContent (fs : FS) (projName : Str) (renMap : Dict)
    (msgs : List Msg) : FS × List Msg :=
  if renMap = [] then (fs, msgs ++ [Msg.noRenames])
  else
    let lines := fsContent fs projName
    let ul := updateLines renMap lines
    if ul.2 then (fsWrite fs projName ul.1, msgs ++ [Msg.wroteContent])
    else (fs, msgs ++ [Msg.noContentChanges])

/-- Steps 0–2 of `rename_files_and_update_project`, entered after the
self-rename check: re-extract the parameters, run the renaming loop over a
fresh listing, register the descriptor's own rename in the map, and update
the content. -/
def runMain (fs1 : FS) (projName origBase : Str) (msgs0 : List Msg) :
    FS × List Msg :=
  let params := extract_parameters_from_project_file (fsContent fs1 projName)
  let msgs1 := msgs0 ++ (if params = [] then [Msg.noParams] else [])
  let st := (fs1.map (fun f => f.name)).foldl
    (processEntry projName origBase params) ⟨fs1, [], msgs1⟩
  let renMap2 :=
    if origBase ≠ projName then dictInsert st.renMap origBase projName
    else st.renMap
  updateProjectContent st.fs projName renMap2 st.msgs

/-- `rename_files_and_update_project(directory)`: locate the descriptor,
perform the self-rename check, then hand over to `runMain`.  Returns the
final directory and the console log. -/
def rename_files_and_update_project (fs : FS) : FS × List Msg :=
  match get_project_file (fs.map (fun f => f.name)) with
  | ProjResult.err m => (fs, [m])
  | ProjResult.found origBase =>
    let params1 := extract_parameters_from_project_file (fsContent fs origBase)
    let pr := generate_new_filename origBase params1
    if pr.1 ≠ origBase then
      if pr.2 ≠ [] then (fs, [Msg.missingProjParams pr.2])
      else if fsExists fs pr.1 = true ∧ pr.1 ≠ origBase then
        (fs, [Msg.projTargetExists pr.1])
      else
        runMain (fsRename fs origBase pr.1) pr.1 origBase
          [Msg.renamedProj origBase pr.1]
    else runMain fs origBase origBase []

/-- Directory violating claim C3's universal reading: the descriptor's own
name `[X].PrjPcb` consists of a single placeholder whose parameter is
missing, so resolution leaves the name unchanged and the missing-parameter
abort is never reached. -/
def cx3 : FS :=
  [⟨str "[X].PrjPcb", true, [str "[Parameter1]\n", str "Name=A\n", str "Value=1\n"]⟩,
   ⟨str "[A].txt", true, []⟩]

/-- Directory violating claim C8: the parameter value `x[A]y` reintroduces
the placeholder `[A]` into the committed filename, so the renaming is not
idempotent. -/
def cx8 : FS :=
  [⟨str "P.PrjPcb", true, [str "[Parameter1]\n", str "Name=A\n", str "Value=x[A]y\n"]⟩,
   ⟨str "[A].txt", true, []⟩]

/-- A directory entry the renaming loop leaves untouched: it is the
descriptor itself, or a non-file, or has no placeholder, or has a missing
parameter, or resolves to its own name, or its target name already exists.
(Used to state when a whole run changes nothing.) -/
def noChangeEntry (p : Str) (params : Dict) (fs : FS) (name : Str) : Bool :=
  decide (name = p) || !fsIsFile fs name ||
  decide (get_placeholder_parameters_from_filename name = []) ||
  decide ((generate_new_filename name params).2 ≠ []) ||
  decide ((generate_new_filename name params).1 = name) ||
  fsExists fs (generate_new_filename name params).1

/-- Splitting the fold of `generate_new_filename` into its two effects:
the working string is the fold of occurrence-blind replacement over the
spans whose names are present, and the missing list collects the names of
the absent spans in first-seen order, duplicates allowed. -/
theorem genAux (p : Dict) (l : List Str) : ∀ (s0 : Str) (m0 : List Str),
    l.foldl (genStep p) (s0, m0) =
      ((l.filter fun sp => (dictGet p (spanInner sp)).isSome).foldl
        (fun acc sp => replaceAll acc sp ((dictGet p (spanInner sp)).getD [])) s0,
       m0 ++ (l.filter fun sp => (dictGet p (spanInner sp)).isNone).map spanInner) := by
  induction l with
  | nil => intro s0 m0; simp
  | cons sp l ih =>
    intro s0 m0
    cases h : dictGet p (spanInner sp) with
    | some v => simp [genStep, h, ih]
    | none => simp [genStep, h, ih]

/-- **C1** — The placeholder resolver returns a pair: the template with,
for each bracketed span whose inner name is a key of the map, every
literal occurrence of that exact span replaced by the value (absent spans
trigger no replacement and are thus left untouched), together with the
absent names in first-seen order, duplicates allowed; and
`resolve("[X]_[Y].ext", {X:"1", Y:"2"})` is `("1_2.ext", [])`. -/
theorem claim_C1_resolver :
    (∀ (t : Str) (p : Dict),
      (generate_new_filename t p).2 =
        ((findSpans t).filter fun sp => (dictGet p (spanInner sp)).isNone).map
          spanInner) ∧
    (∀ (t : Str) (p : Dict),
      (generate_new_filename t p).1 =
        ((findSpans t).filter fun sp => (dictGet p (spanInner sp)).isSome).foldl
          (fun acc sp => replaceAll acc sp ((dictGet p (spanInner sp)).getD []))
          t) ∧
    generate_new_filename (str "[X]_[Y].ext")
        [(str "X", str "1"), (str "Y", str "2")] = (str "1_2.ext", []) := by
  refine ⟨fun t p => ?_, fun t p => ?_, by decide⟩
  · rw [generate_new_filename, genAux]; simp
  · rw [generate_new_filename, genAux]

/-- **C2** — The parameter extractor is a pending-name state machine: a
block header clears the pending name and adds nothing, a `Name=` line sets
the pending name and adds nothing, a `Value=` line with a pending name set
adds the entry and clears the pending name, a `Value=` line with no
pending name is ignored, and a later `Name=A`/`Value=2` pair overwrites an
earlier `A → 1` (last-write-wins). -/
theorem claim_C2_extractor :
    (∀ (st : Option Str × Dict) (l : Str),
        isParamHeader (pstrip l) = true → extractLine st l = (none, st.2)) ∧
    (∀ (st : Option Str × Dict) (l g : Str),
        isParamHeader (pstrip l) = false → nameGroup (pstrip l) = some g →
        extractLine st l = (some (pstrip g), st.2)) ∧
    (∀ (nm : Str) (d : Dict) (l g : Str),
        isParamHeader (pstrip l) = false → nameGroup (pstrip l) = none →
        valueGroup (pstrip l) = some g → nm ≠ [] →
        extractLine (some nm, d) l = (none, dictInsert d nm (pstrip g))) ∧
    (∀ (d : Dict) (l g : Str),
        isParamHeader (pstrip l) = false → nameGroup (pstrip l) = none →
        valueGroup (pstrip l) = some g →
        extractLine (none, d) l = (none, d)) ∧
    dictGet (extract_parameters_from_project_file
        [str "Name=A\n", str "Value=1\n", str "Name=A\n", str "Value=2\n"])
      (str "A") = some (str "2") := by
  refine ⟨fun st l h => ?_, fun st l g h1 h2 => ?_,
    fun nm d l g h1 h2 h3 h4 => ?_, fun d l g h1 h2 h3 => ?_, by decide⟩
  · simp [extractLine, h]
  · simp [extractLine, h1, h2]
  · simp [extractLine, h1, h2, h3, h4]
  · simp [extractLine, h1, h2, h3]

/-- Witness for C2: a `Value=` line consumes the pending name `A`. -/
theorem claim_C2_witness :
    extractLine (some (str "A"), ([] : Dict)) (str "Value=2\n") =
      (none, dictInsert [] (str "A") (pstrip (str "2"))) :=
  claim_C2_extractor.2.2.1 (str "A") [] (str "Value=2\n") (str "2")
    (by decide) (by decide) (by decide) (by decide)

/-- **C4** — The §8 reference-rewrite example: the rename map entry
rewrites `DocumentPath=Sub\[PCBANumber]_ASSY.PCBDwf` to
`DocumentPath=Sub\12345_ASSY.PCBDwf`, preserving the directory prefix,
and every line that does not begin (after stripping) with the
`DocumentPath=` key is byte-identical after the pass. -/
theorem claim_C4_reference_rewrite :
    rewriteLine [(str "[PCBANumber]_ASSY.PCBDwf", str "12345_ASSY.PCBDwf")]
        (str "DocumentPath=Sub\\[PCBANumber]_ASSY.PCBDwf\n") =
      str "DocumentPath=Sub\\12345_ASSY.PCBDwf\n" ∧
    ∀ (m : Dict) (line : Str),
      startsWithStr (str "DocumentPath=") (pstrip line) = false →
      rewriteLine m line = line := by
  refine ⟨by decide, fun m line h => ?_⟩
  simp [rewriteLine, h]

/-- Witness for C4: a non-reference line passes through unchanged. -/
theorem claim_C4_witness :
    rewriteLine [] (str "Name=A\n") = str "Name=A\n" :=
  claim_C4_reference_rewrite.2 [] (str "Name=A\n") (by decide)

/-- **C10** — Substitution operates on the accumulated working string:
resolving `[A]_[B]` with `{A:"[B]", B:"v"}` yields `("v_v", [])`, the
injected span being substituted as well; and a successful resolution
(empty missing list) can still contain a bracket when a value does
(`{A:"[C]", B:"v"}` yields `[C]_v`). -/
theorem claim_C10_accumulated_substitution :
    generate_new_filename (str "[A]_[B]")
        [(str "A", str "[B]"), (str "B", str "v")] = (str "v_v", []) ∧
    (generate_new_filename (str "[A]_[B]")
        [(str "A", str "[C]"), (str "B", str "v")]).2 = [] ∧
    (generate_new_filename (str "[A]_[B]")
        [(str "A", str "[C]"), (str "B", str "v")]).1 = str "[C]_v" ∧
    '[' ∈ (generate_new_filename (str "[A]_[B]")
        [(str "A", str "[C]"), (str "B", str "v")]).1 := by decide

/-- Counterexample to **C3** as stated: in `cx3` the descriptor's own name
resolves with the non-empty missing list `[X]`, yet the run does not
abort — it proceeds and renames `[A].txt` to `1.txt`. -/
theorem claim_C3_counterexample :
    (generate_new_filename (str "[X].PrjPcb")
        (extract_parameters_from_project_file
          (fsContent cx3 (str "[X].PrjPcb")))).2 ≠ [] ∧
    (rename_files_and_update_project cx3).1 ≠ cx3 ∧
    fsExists (rename_files_and_update_project cx3).1 (str "1.txt") = true := by
  decide

/-- **C3 (amended)** — The run aborts with nothing renamed and nothing
rewritten when resolving the descriptor's own name yields missing
placeholder names *and* a changed name; when the resolved name is
unchanged the missing-parameter check is skipped and the run proceeds. -/
theorem claim_C3_abort_on_missing (fs : FS) (p nb : Str) (miss : List Str)
    (h1 : get_project_file (fs.map fun f => f.name) = ProjResult.found p)
    (h2 : generate_new_filename p
        (extract_parameters_from_project_file (fsContent fs p)) = (nb, miss))
    (h3 : nb ≠ p) (h4 : miss ≠ []) :
    rename_files_and_update_project fs = (fs, [Msg.missingProjParams miss]) := by
  simp only [rename_files_and_update_project, h1, h2]
  simp [h3, h4]

/-- Witness for C3 (amended): a descriptor name with one resolvable and
one missing placeholder aborts the run. -/
theorem claim_C3_witness :
    rename_files_and_update_project
        [⟨str "[X]_[A].PrjPcb", true, [str "Name=A\n", str "Value=1\n"]⟩] =
      ([⟨str "[X]_[A].PrjPcb", true, [str "Name=A\n", str "Value=1\n"]⟩],
        [Msg.missingProjParams [str "X"]]) :=
  claim_C3_abort_on_missing
    [⟨str "[X]_[A].PrjPcb", true, [str "Name=A\n", str "Value=1\n"]⟩]
    (str "[X]_[A].PrjPcb") (str "[X]_1.PrjPcb") [str "X"]
    (by decide) (by decide) (by decide) (by decide)

/-- **C5** — In the renaming pass, an entry (a file, not the descriptor,
with at least one placeholder) whose resolution yields a non-empty missing
list is skipped with a warning: the directory and the rename map are
unchanged and the loop state only gains the warning, so the run continues
with the remaining entries. -/
theorem claim_C5_skip_on_missing (projName origBase : Str) (params : Dict)
    (st : LoopSt) (name : Str)
    (h1 : fsIsFile st.fs name = true)
    (h2 : ¬(name = projName ∨ (projName ≠ origBase ∧ name = origBase)))
    (h3 : get_placeholder_parameters_from_filename name ≠ [])
    (h4 : (generate_new_filename name params).2 ≠ []) :
    processEntry projName origBase params st name =
      { st with msgs := st.msgs ++
          [Msg.skipMissing name (generate_new_filename name params).2] } := by
  simp [processEntry, h1, h2, h3, h4]

/-- Witness for C5: `[Z].txt` with no parameters is skipped. -/
theorem claim_C5_witness :
    processEntry (str "P.PrjPcb") (str "P.PrjPcb") []
        ⟨[⟨str "[Z].txt", true, []⟩], [], []⟩ (str "[Z].txt") =
      { fs := [⟨str "[Z].txt", true, []⟩], renMap := [],
        msgs := [] ++ [Msg.skipMissing (str "[Z].txt")
          (generate_new_filename (str "[Z].txt") []).2] } :=
  claim_C5_skip_on_missing (str "P.PrjPcb") (str "P.PrjPcb") []
    ⟨[⟨str "[Z].txt", true, []⟩], [], []⟩ (str "[Z].txt")
    (by decide) (by decide) (by decide) (by decide)

/-- **C6** — In the renaming pass, an entry whose fully-resolved target
name differs from its own and already exists on disk is skipped with a
warning: it is neither renamed nor added to the rename map, and the run
continues. -/
theorem claim_C6_skip_on_collision (projName origBase : Str) (params : Dict)
    (st : LoopSt) (name : Str)
    (h1 : fsIsFile st.fs name = true)
    (h2 : ¬(name = projName ∨ (projName ≠ origBase ∧ name = origBase)))
    (h3 : get_placeholder_parameters_from_filename name ≠ [])
    (h4 : (generate_new_filename name params).2 = [])
    (h5 : (generate_new_filename name params).1 ≠ name)
    (h6 : fsExists st.fs (generate_new_filename name params).1 = true) :
    processEntry projName origBase params st name =
      { st with msgs := st.msgs ++
          [Msg.skipExists name (generate_new_filename name params).1] } := by
  simp [processEntry, h1, h2, h3, h4, h5, h6]

/-- Witness for C6: `[A].txt` resolves to `1.txt`, which already exists
as a different file, so it is skipped. -/
theorem claim_C6_witness :
    processEntry (str "P.PrjPcb") (str "P.PrjPcb") [(str "A", str "1")]
        ⟨[⟨str "[A].txt", true, []⟩, ⟨str "1.txt", true, []⟩], [], []⟩
        (str "[A].txt") =
      { fs := [⟨str "[A].txt", true, []⟩, ⟨str "1.txt", true, []⟩],
        renMap := [],
        msgs := [] ++ [Msg.skipExists (str "[A].txt")
          (generate_new_filename (str "[A].txt") [(str "A", str "1")]).1] } :=
  claim_C6_skip_on_collision (str "P.PrjPcb") (str "P.PrjPcb")
    [(str "A", str "1")]
    ⟨[⟨str "[A].txt", true, []⟩, ⟨str "1.txt", true, []⟩], [], []⟩
    (str "[A].txt")
    (by decide) (by decide) (by decide) (by decide) (by decide) (by decide)

/-- **C7** — The descriptor locator: zero allow-listed entries give the
"no descriptor found" condition, more than one give the "multiple
descriptors found" condition naming all candidates, exactly one returns
its path; and on either error condition the orchestrator aborts with the
directory untouched. -/
theorem claim_C7_locator :
    (∀ listing : List Str, listing.filter hasProjExt = [] →
        get_project_file listing = ProjResult.err Msg.noProject) ∧
    (∀ listing : List Str, 2 ≤ (listing.filter hasProjExt).length →
        get_project_file listing =
          ProjResult.err (Msg.multiProject (listing.filter hasProjExt))) ∧
    (∀ (listing : List Str) (f : Str), listing.filter hasProjExt = [f] →
        get_project_file listing = ProjResult.found f) ∧
    (∀ (fs : FS) (m : Msg),
        get_project_file (fs.map fun f => f.name) = ProjResult.err m →
        rename_files_and_update_project fs = (fs, [m])) := by
  refine ⟨fun listing h => ?_, fun listing h => ?_,
    fun listing f h => ?_, fun fs m h => ?_⟩
  · simp [get_project_file, h]
  · rcases hl : listing.filter hasProjExt with _ | ⟨a, _ | ⟨b, rest⟩⟩
    · rw [hl] at h; simp at h
    · rw [hl] at h; simp at h
    · simp [get_project_file, hl]
  · simp [get_project_file, h]
  · simp [rename_files_and_update_project, h]

/-- Witness for C7: a directory with no descriptor aborts untouched. -/
theorem claim_C7_witness :
    rename_files_and_update_project [⟨str "a.txt", true, []⟩] =
      ([⟨str "a.txt", true, []⟩], [Msg.noProject]) :=
  claim_C7_locator.2.2.2 [⟨str "a.txt", true, []⟩] Msg.noProject (by decide)

/-- An entry satisfying `noChangeEntry` leaves the directory and the
rename map of the loop state untouched (it may add warnings). -/
theorem processEntry_noop (p : Str) (params : Dict) (st : LoopSt) (n : Str)
    (hn : noChangeEntry p params st.fs n = true) :
    (processEntry p p params st n).fs = st.fs ∧
    (processEntry p p params st n).renMap = st.renMap := by
  simp only [noChangeEntry, Bool.or_eq_true, decide_eq_true_eq,
    Bool.not_eq_true'] at hn
  simp only [processEntry]
  split
  · exact ⟨rfl, rfl⟩
  · split
    · exact ⟨rfl, rfl⟩
    · split
      · exact ⟨rfl, rfl⟩
      · split
        · exact ⟨rfl, rfl⟩
        · split
          · split
            · exact ⟨rfl, rfl⟩
            · exfalso
              rename_i hfile hskip hph hmiss hneq hex
              rcases hn with ((((hc | hc) | hc) | hc) | hc) | hc
              · exact hskip (Or.inl hc)
              · simp [hc] at hfile
              · exact hph hc
              · exact hmiss hc
              · exact hneq hc
              · exact hex ⟨hc, hneq⟩
          · exact ⟨rfl, rfl⟩

/-- Folding `processEntry` (with the descriptor not renamed) over entries
that all satisfy `noChangeEntry` preserves the directory and keeps the
rename map empty. -/
theorem loop_noop (p : Str) (params : Dict) (fs : FS) :
    ∀ (l : List Str) (st : LoopSt), st.fs = fs → st.renMap = [] →
      (∀ n ∈ l, noChangeEntry p params fs n = true) →
      (l.foldl (processEntry p p params) st).fs = fs ∧
      (l.foldl (processEntry p p params) st).renMap = [] := by
  intro l
  induction l with
  | nil => intro st h1 h2 _; exact ⟨h1, h2⟩
  | cons n l ih =>
    intro st h1 h2 hl
    have hn : noChangeEntry p params st.fs n = true := by
      rw [h1]; exact hl n (List.mem_cons_self n l)
    have hpe := processEntry_noop p params st n hn
    exact ih (processEntry p p params st n) (hpe.1.trans h1) (hpe.2.trans h2)
      (fun m hm => hl m (List.mem_cons_of_mem n hm))

/-- Counterexample to **C8** as stated: the first run on `cx8` completes
successfully and commits the rename `[A].txt → x[A]y.txt` (the parameter
value `x[A]y` reintroduces the placeholder), and a second run on the
resulting directory renames again (`x[A]y.txt → xx[A]yy.txt`), so it is
not a no-op. -/
theorem claim_C8_counterexample :
    fsExists (rename_files_and_update_project cx8).1 (str "x[A]y.txt") = true ∧
    fsExists (rename_files_and_update_project
        (rename_files_and_update_project cx8).1).1 (str "xx[A]yy.txt") = true ∧
    (rename_files_and_update_project
        (rename_files_and_update_project cx8).1).1 ≠
      (rename_files_and_update_project cx8).1 := by decide

/-- **C8 (amended)** — A run performs no changes when the descriptor's own
name resolves to itself and every listed entry is `noChangeEntry`: the
descriptor itself, a non-file, a name without placeholders, a name with
missing parameters, a name resolving to itself, or a name whose target
already exists.  In particular a second run is a no-op whenever the first
run left only such names — which the claim's justification (resolved names
contain no placeholders) guarantees only when parameter values do not
reintroduce bracketed spans. -/
theorem claim_C8_run_noop (fs : FS) (p : Str)
    (h1 : get_project_file (fs.map fun f => f.name) = ProjResult.found p)
    (h2 : (generate_new_filename p
        (extract_parameters_from_project_file (fsContent fs p))).1 = p)
    (h3 : ∀ n ∈ fs.map (fun f => f.name),
        noChangeEntry p (extract_parameters_from_project_file (fsContent fs p))
          fs n = true) :
    (rename_files_and_update_project fs).1 = fs := by
  have key : ∀ msgs0 : List Msg, (runMain fs p p msgs0).1 = fs := by
    intro msgs0
    simp only [runMain]
    obtain ⟨hfs, hmap⟩ := loop_noop p
      (extract_parameters_from_project_file (fsContent fs p)) fs
      (fs.map fun f => f.name)
      ⟨fs, [], msgs0 ++ (if extract_parameters_from_project_file
        (fsContent fs p) = [] then [Msg.noParams] else [])⟩
      rfl rfl h3
    rw [hmap, hfs]
    simp [updateProjectContent]
  simp only [rename_files_and_update_project, h1, h2]
  simpa using key []

/-- Witness for C8 (amended): a directory whose files are already
resolved (`1.txt`) or unresolvable (`[B].txt`) is left unchanged. -/
theorem claim_C8_witness :
    (rename_files_and_update_project
      [⟨str "P.PrjPcb", true,
          [str "[Parameter1]\n", str "Name=A\n", str "Value=1\n"]⟩,
       ⟨str "1.txt", true, []⟩, ⟨str "[B].txt", true, []⟩]).1 =
      [⟨str "P.PrjPcb", true,
          [str "[Parameter1]\n", str "Name=A\n", str "Value=1\n"]⟩,
       ⟨str "1.txt", true, []⟩, ⟨str "[B].txt", true, []⟩] :=
  claim_C8_run_noop
    [⟨str "P.PrjPcb", true,
        [str "[Parameter1]\n", str "Name=A\n", str "Value=1\n"]⟩,
     ⟨str "1.txt", true, []⟩, ⟨str "[B].txt", true, []⟩]
    (str "P.PrjPcb") (by decide) (by decide) (by decide)

/-- The line-updating fold, split into its two components. -/
theorem updateLines_spec (renMap : Dict) (lines : List Str) :
    ∀ (acc : List Str) (flag : Bool),
      lines.foldl
        (fun acc line =>
          let m := rewriteLine renMap line
          (acc.1 ++ [m], acc.2 || (pstrip m != pstrip line)))
        (acc, flag) =
      (acc ++ lines.map (rewriteLine renMap),
       flag || lines.any fun line =>
         pstrip (rewriteLine renMap line) != pstrip line) := by
  induction lines with
  | nil => intro acc flag; simp
  | cons l ls ih =>
    intro acc flag
    simp [ih, Bool.or_assoc]

/-- A list mapped to itself is fixed pointwise. -/
theorem map_self_fixed {α : Type} (f : α → α) :
    ∀ (l : List α), l.map f = l → ∀ x ∈ l, f x = x := by
  intro l
  induction l with
  | nil => intro _ x hx; cases hx
  | cons a l ih =>
    intro h x hx
    simp only [List.map_cons, List.cons.injEq] at h
    rcases List.mem_cons.mp hx with hx | hx
    · rw [hx]; exact h.1
    · exact ih h.2 x hx

/-- **C9** — The reference-rewrite step is frame-preserving: with an empty
rename map it stops before touching any line, and with a non-empty map it
writes the descriptor back only if some line actually changed — if the
rewritten line sequence equals the original, the directory is unchanged. -/
theorem claim_C9_rewrite_frame (fs : FS) (projName : Str) (renMap : Dict)
    (msgs : List Msg) :
    (renMap = [] →
      updateProjectContent fs projName renMap msgs =
        (fs, msgs ++ [Msg.noRenames])) ∧
    ((updateLines renMap (fsContent fs projName)).1 = fsContent fs projName →
      (updateProjectContent fs projName renMap msgs).1 = fs) := by
  constructor
  · intro h; simp [updateProjectContent, h]
  · intro h
    by_cases hm : renMap = []
    · simp [updateProjectContent, hm]
    · have hlines : (fsContent fs projName).map (rewriteLine renMap) =
          fsContent fs projName := by
        have := updateLines_spec renMap (fsContent fs projName) [] false
        simpa [updateLines, this] using h
      have hflag : (updateLines renMap (fsContent fs projName)).2 = false := by
        rw [updateLines, updateLines_spec renMap (fsContent fs projName) [] false]
        simp only [Bool.false_or]
        rw [List.any_eq_false]
        intro line hline
        rw [map_self_fixed (rewriteLine renMap) (fsContent fs projName) hlines
          line hline]
        simp
      simp [updateProjectContent, hm, hflag]

/-- Witness for C9: with an empty rename map nothing is read or written. -/
theorem claim_C9_witness :
    updateProjectContent [] (str "P.PrjPcb") [] [] =
      ([], [] ++ [Msg.noRenames]) :=
  (claim_C9_rewrite_frame [] (str "P.PrjPcb") [] []).1 rfl
